import Mathlib

/-!
# Verification of the Bill Splitter Room component

Shallow embedding of `src/src/pages/Room.tsx`. The file contains two
near-duplicate variants of the `Room` component, separated by a document
separator; definitions below carry a `V1` / `V2` suffix where the two
variants differ. JavaScript strings are modelled as `String`, JS numbers
(menu prices, bill totals) as `ℚ`, and ISO-8601 `createdAt` timestamps as
`Nat` (the parsed epoch value, since only their relative order and
presence/absence matter to the component). JS truthiness of a string is
`s ≠ ""`; an absent (`undefined`) field is `Option.none`.
-/

/-- JS `String.prototype.trim()`: strip leading and trailing whitespace.
Defined over the character list so that it evaluates in the kernel. -/
def jsTrim (s : String) : String :=
  ⟨(((s.data.dropWhile Char.isWhitespace).reverse).dropWhile Char.isWhitespace).reverse⟩

/-- Canonical message shape (interface `Message`, Room.tsx lines 13-20;
variant 2 omits `roomId`, modelled here as `none`). Timestamps are the
parsed epoch `Nat`. -/
structure Message where
  id : String
  senderName : String
  text : Option String
  proofUrl : Option String
  createdAt : Nat
  roomId : Option String
deriving Repr, DecidableEq

/-- Menu item shape (interface `MenuItem`, Room.tsx lines 22-26). -/
structure MenuItem where
  id : String
  name : String
  price : ℚ
deriving Repr, DecidableEq

/-! ## Presence list normalization (variant 1)

`normalizeUserList` (Room.tsx lines 45-46):
`Array.from(new Set(users.filter((u) => u && u.trim() && u !== displayName)))`.
`new Set` keeps the first occurrence of each element, in insertion order. -/

/-- First-occurrence deduplication, the order-preserving semantics of
`Array.from(new Set(xs))`. `seen` accumulates elements already emitted. -/
def dedupFirstAux : List String → List String → List String
  | [], _ => []
  | x :: xs, seen =>
      if x ∈ seen then dedupFirstAux xs seen
      else x :: dedupFirstAux xs (x :: seen)

/-- Semantics of `Array.from(new Set(xs))`: keep the first occurrence of each element. -/
def dedupFirst (l : List String) : List String :=
  dedupFirstAux l []

/-- The filter predicate of `normalizeUserList`: `u && u.trim() && u !== displayName`
(JS truthiness of a string is non-emptiness). -/
def userKeep (displayName u : String) : Bool :=
  !(u == "") && !(jsTrim u == "") && !(u == displayName)

/-- Source function `normalizeUserList` (Room.tsx lines 45-46). -/
def normalizeUserList (displayName : String) (users : List String) : List String :=
  dedupFirst (users.filter (userKeep displayName))

/-- The `userList` socket handler (Room.tsx line 136): replaces `onlineUsers`
with the normalized received list; the previous set is ignored. -/
def applyUserList (displayName : String) (_prev users : List String) : List String :=
  normalizeUserList displayName users

/-- What the spec's words describe for C3: a deduplicated, *trimmed* version
of the received list that excludes the local user's own name. Kept separate
from `normalizeUserList` (which is translated from the source) so the two
can be compared. -/
def normalizeUserListSpec (displayName : String) (users : List String) : List String :=
  dedupFirst ((users.map jsTrim).filter (fun u => !(u == "") && !(u == displayName)))

/-! ## Bill split (Room.tsx lines 219-221 and line 299) -/

/-- Source value `totalBill` (Room.tsx line 219): `menuItems.reduce((sum, item) => sum + (item.price || 0), 0)`.
A price of `0` is falsy in JS, so `item.price || 0` is the price itself. -/
def totalBill (menuItems : List MenuItem) : ℚ :=
  menuItems.foldl (fun sum item => sum + item.price) 0

/-- Source value `totalParticipants` (Room.tsx line 220): `1 + onlineUsers.length`. -/
def totalParticipants (onlineUsers : List String) : Nat :=
  1 + onlineUsers.length

/-- Source value `eachShare` (Room.tsx line 221):
`totalParticipants > 0 ? totalBill / totalParticipants : totalBill`. -/
def eachShare (menuItems : List MenuItem) (onlineUsers : List String) : ℚ :=
  if totalParticipants onlineUsers > 0 then
    totalBill menuItems / (totalParticipants onlineUsers : ℚ)
  else totalBill menuItems

/-- The inline "Each User Pays" division (Room.tsx line 299):
`totalBill / (onlineUsers.length + 1)`. -/
def inlineEachUserPays (menuItems : List MenuItem) (onlineUsers : List String) : ℚ :=
  totalBill menuItems / ((onlineUsers.length + 1 : Nat) : ℚ)

/-! ## Inbound message reconciliation

Variant 1 (Room.tsx lines 148-157) dedups by message id and filters
self-sent text by name; variant 2 (lines 546-559) appends unconditionally. -/

/-- Append-unless-present merge used by the variant-1 handlers:
`prev.some((m) => m.id === msg.id) ? prev : [...prev, msg]`. -/
def mergeById (prev : List Message) (msg : Message) : List Message :=
  if prev.any (fun m => m.id == msg.id) then prev else prev ++ [msg]

/-- The `receiveMessage` handler, variant 1 (Room.tsx lines 148-151):
discard self-sent messages by name, otherwise merge by id. -/
def receiveMessageV1 (displayName : String) (prev : List Message) (msg : Message) :
    List Message :=
  if msg.senderName == displayName then prev else mergeById prev msg

/-- The `receiveProof` handler, variant 1 (Room.tsx lines 153-157): merge by id,
no sender filtering. -/
def receiveProofV1 (prev : List Message) (proof : Message) : List Message :=
  mergeById prev proof

/-- The `newMessage` handler, variant 2 (Room.tsx lines 546-549):
`setMessages((prev) => [...prev, msg])` — unconditional append. -/
def newMessageV2 (prev : List Message) (msg : Message) : List Message :=
  prev ++ [msg]

/-- Raw `newProof` payload of variant 2 (fields read at Room.tsx
lines 551-559). -/
structure ProofPayload where
  id : String
  senderName : Option String
  proofUrl : Option String
  createdAt : Option Nat
deriving Repr, DecidableEq

/-- JS `a || b` on an optional string with a string default: falls through
when `a` is absent or empty. -/
def strOr (a : Option String) (b : String) : String :=
  match a with
  | some s => if s == "" then b else s
  | none => b

/-- JS `a || b` on two optional strings. -/
def strOrOpt (a b : Option String) : Option String :=
  match a with
  | some s => if s == "" then b else some s
  | none => b

/-- The `newProof` handler, variant 2 (Room.tsx lines 551-559): build the
message with fallbacks (`proof.senderName || displayName`,
`proof.createdAt || new Date().toISOString()`), then append
unconditionally. -/
def newProofV2 (displayName : String) (now : Nat) (prev : List Message)
    (proof : ProofPayload) : List Message :=
  prev ++ [{ id := proof.id
             senderName := strOr proof.senderName displayName
             text := none
             proofUrl := proof.proofUrl
             createdAt := proof.createdAt.getD now
             roomId := none }]

/-! ## History fetch normalization (Room.tsx lines 92-106 and 513-521) -/

/-- Raw wire shape of one element of `GET /messages/{roomId}`. -/
structure RawMessage where
  id : String
  senderName : Option String
  senderDotName : Option String
  text : Option String
  proofUrl : Option String
  fileUrl : Option String
  createdAt : Option Nat
deriving Repr, DecidableEq

/-- Normalization of one raw history message (Room.tsx lines 94-100, same
map in both variants): `senderName: msg.senderName || msg.sender?.name || "Unknown"`,
`proofUrl: msg.proofUrl || msg.fileUrl`,
`createdAt: msg.createdAt || new Date().toISOString()`. -/
def normalizeMessage (now : Nat) (msg : RawMessage) : Message :=
  { id := msg.id
    senderName := strOr msg.senderName (strOr msg.senderDotName "Unknown")
    text := msg.text
    proofUrl := strOrOpt msg.proofUrl msg.fileUrl
    createdAt := msg.createdAt.getD now
    roomId := none }

/-- Insert into a list sorted ascending by `createdAt`. -/
def insertByTime (m : Message) : List Message → List Message
  | [] => [m]
  | x :: xs => if m.createdAt ≤ x.createdAt then m :: x :: xs
               else x :: insertByTime m xs

/-- The ascending sort by parsed `createdAt` applied in variant 1
(Room.tsx lines 101-105: comparator
`new Date(a.createdAt).getTime() - new Date(b.createdAt).getTime()`). -/
def sortByTime : List Message → List Message
  | [] => []
  | x :: xs => insertByTime x (sortByTime xs)

/-- The `fetchMessages` normalization pipeline, variant 1 (Room.tsx
lines 92-106): map then sort ascending by timestamp. -/
def fetchMessagesV1 (now : Nat) (raws : List RawMessage) : List Message :=
  sortByTime (raws.map (normalizeMessage now))

/-- The `fetchMessages` normalization pipeline, variant 2 (Room.tsx
lines 513-521): map only, no sort. -/
def fetchMessagesV2 (now : Nat) (raws : List RawMessage) : List Message :=
  raws.map (normalizeMessage now)

/-! ## Send path (`handleSend`, Room.tsx lines 168-217 and 568-612)

The component state touched by `handleSend` is the message list, the input
field and the selected file (modelled by its name; content is irrelevant
here). The HTTP upload's outcome is passed in as a parameter: `none` covers
both a non-ok response and a thrown request, either of which lands in the
`catch` block that changes no state. -/

/-- The slice of component state read and written by `handleSend`. -/
structure SendState where
  messages : List Message
  input : String
  file : Option String
deriving Repr, DecidableEq

/-- The server-returned attachment descriptor `data.proof` of a successful
`POST /proofs/{roomId}`. -/
structure ProofDescriptor where
  id : String
  fileUrl : String
  createdAt : Nat
deriving Repr, DecidableEq

/-- Outcome of the upload request: `some` descriptor on a 2xx response,
`none` when the response is not ok or the request throws. -/
abbrev UploadResult : Type := Option ProofDescriptor

/-- The optimistic local message built by the text branch of variant 1
(Room.tsx lines 172-178); note `text: input.trim()`. -/
def textMsgV1 (displayName roomId newId : String) (now : Nat) (input : String) : Message :=
  { id := newId, senderName := displayName, text := some (jsTrim input)
    proofUrl := none, createdAt := now, roomId := some roomId }

/-- Text branch of variant-1 `handleSend` (Room.tsx lines 171-182): when the
trimmed input is non-empty, append the optimistic message and clear the
input field. -/
def textBranchV1 (displayName roomId newId : String) (now : Nat) (s : SendState) :
    SendState :=
  if jsTrim s.input == "" then s
  else { s with
           messages := s.messages ++ [textMsgV1 displayName roomId newId now s.input],
           input := "" }

/-- The local message built from the upload descriptor in variant 1
(Room.tsx lines 197-203). -/
def proofMsgV1 (displayName roomId : String) (d : ProofDescriptor) : Message :=
  { id := d.id, senderName := displayName, text := none
    proofUrl := some d.fileUrl, createdAt := d.createdAt, roomId := some roomId }

/-- File branch of variant-1 `handleSend` (Room.tsx lines 184-216): with a
selected file, on upload success merge the proof message by id and clear
the selection; on failure (`catch`) change nothing. -/
def fileBranchV1 (displayName roomId : String) (upload : UploadResult) (s : SendState) :
    SendState :=
  match s.file with
  | none => s
  | some _ =>
      match upload with
      | none => s
      | some d => { s with
                      messages := mergeById s.messages (proofMsgV1 displayName roomId d),
                      file := none }

/-- Source function `handleSend`, variant 1 (Room.tsx lines 168-217). The top guard is
`if (!socket || (!input.trim() && !file)) return;`. -/
def handleSendV1 (socket : Bool) (displayName roomId newId : String) (now : Nat)
    (upload : UploadResult) (s : SendState) : SendState :=
  if !socket || (jsTrim s.input == "" && s.file == none) then s
  else fileBranchV1 displayName roomId upload
        (textBranchV1 displayName roomId newId now s)

/-- The optimistic local message built by the text branch of variant 2
(Room.tsx lines 572-577); note `text: input` (untrimmed), no `roomId`
on the local copy. -/
def textMsgV2 (displayName newId : String) (now : Nat) (input : String) : Message :=
  { id := newId, senderName := displayName, text := some input
    proofUrl := none, createdAt := now, roomId := none }

/-- Text branch of variant-2 `handleSend` (Room.tsx lines 571-581): guarded
by `input.trim() && socket`. -/
def textBranchV2 (socket : Bool) (displayName newId : String) (now : Nat)
    (s : SendState) : SendState :=
  if jsTrim s.input != "" && socket then
    { s with
        messages := s.messages ++ [textMsgV2 displayName newId now s.input],
        input := "" }
  else s

/-- The local message built from the upload descriptor in variant 2
(Room.tsx lines 596-601). -/
def proofMsgV2 (displayName : String) (d : ProofDescriptor) : Message :=
  { id := d.id, senderName := displayName, text := none
    proofUrl := some d.fileUrl, createdAt := d.createdAt, roomId := none }

/-- File branch of variant-2 `handleSend` (Room.tsx lines 583-611): guarded
by `file && token`; on success the proof message is appended
unconditionally (no dedup); on failure (`catch`) nothing changes. -/
def fileBranchV2 (tokenPresent : Bool) (displayName : String) (upload : UploadResult)
    (s : SendState) : SendState :=
  if s.file != none && tokenPresent then
    match upload with
    | none => s
    | some d => { s with
                    messages := s.messages ++ [proofMsgV2 displayName d],
                    file := none }
  else s

/-- Source function `handleSend`, variant 2 (Room.tsx lines 568-612). The top guard is
`if (!input.trim() && !file) return;`. -/
def handleSendV2 (socket tokenPresent : Bool) (displayName newId : String) (now : Nat)
    (upload : UploadResult) (s : SendState) : SendState :=
  if jsTrim s.input == "" && s.file == none then s
  else fileBranchV2 tokenPresent displayName upload
        (textBranchV2 socket displayName newId now s)

/-! ## Effect guards and teardown (Room.tsx lines 54-59, 118-119, 162-164,
532-533, 562-564)

Both effects start with a token guard; the fetch effect's body issues the
two HTTP requests, the socket effect's body opens exactly one connection
and returns a cleanup closure that disconnects it. The cleanup closure
ignores everything except the captured connection, so it is modelled as a
function of the number of pending inbound events that discards its
argument, exactly as `() => { s.disconnect(); }` does. -/

/-- Teardown actions a cleanup run can perform; `connId` identifies the
connection opened by the same mount. -/
inductive TeardownAction where
  | disconnect (connId : Nat)
deriving Repr, DecidableEq

/-- Observable outcome of the fetch effect (Room.tsx lines 54-114):
where the component navigated, and which requests went out. -/
structure FetchEffectResult where
  navigatedTo : Option String
  roomFetchIssued : Bool
  historyFetchIssued : Bool
deriving Repr, DecidableEq

/-- The fetch effect (Room.tsx lines 54-114): with no token, toast and
navigate to `/login` before any request; with a token, issue both fetches,
navigating to `/rooms` if the room fetch fails. -/
def fetchEffect (token : Option String) (roomFetchOk : Bool) : FetchEffectResult :=
  match token with
  | none => { navigatedTo := some "/login", roomFetchIssued := false
              historyFetchIssued := false }
  | some _ => { navigatedTo := if roomFetchOk then none else some "/rooms"
                roomFetchIssued := true, historyFetchIssued := true }

/-- Observable outcome of the socket effect (Room.tsx lines 118-165 and
532-565): the connection opened, if any, and the cleanup closure returned
to the renderer, as a function of the number of inbound events still
pending at teardown time. -/
structure SocketEffectResult where
  conn : Option Nat
  cleanup : Nat → List TeardownAction

/-- The socket effect, identical in both variants for present purposes:
`if (!token) return` (empty cleanup); otherwise open one connection and
return `() => { s.disconnect(); }`. -/
def socketEffect (token : Option String) (connId : Nat) : SocketEffectResult :=
  match token with
  | none => { conn := none, cleanup := fun _ => [] }
  | some _ => { conn := some connId
                cleanup := fun _ => [TeardownAction.disconnect connId] }

/-! ## Helper lemmas -/

theorem mem_dedupFirstAux (a : String) (l : List String) :
    ∀ seen, a ∈ dedupFirstAux l seen ↔ a ∈ l ∧ a ∉ seen := by
  induction l with
  | nil => intro seen; simp [dedupFirstAux]
  | cons x xs ih =>
      intro seen
      by_cases hx : x ∈ seen
      · rw [dedupFirstAux, if_pos hx, ih]
        constructor
        · rintro ⟨h1, h2⟩
          exact ⟨List.mem_cons_of_mem _ h1, h2⟩
        · rintro ⟨h1, h2⟩
          rcases List.mem_cons.mp h1 with rfl | h
          · exact absurd hx h2
          · exact ⟨h, h2⟩
      · rw [dedupFirstAux, if_neg hx, List.mem_cons]
        by_cases hax : a = x
        · subst hax
          simp [hx]
        · rw [ih (x :: seen)]
          simp [List.mem_cons, hax]

theorem nodup_dedupFirstAux (l : List String) :
    ∀ seen, (dedupFirstAux l seen).Nodup := by
  induction l with
  | nil => intro seen; simp [dedupFirstAux]
  | cons x xs ih =>
      intro seen
      by_cases hx : x ∈ seen
      · rw [dedupFirstAux, if_pos hx]
        exact ih seen
      · rw [dedupFirstAux, if_neg hx, List.nodup_cons]
        refine ⟨fun hmem => ?_, ih (x :: seen)⟩
        exact ((mem_dedupFirstAux x xs (x :: seen)).mp hmem).2 (List.mem_cons_self x seen)

theorem dedupFirstAux_eq_self (l : List String) :
    ∀ seen, l.Nodup → (∀ a ∈ l, a ∉ seen) → dedupFirstAux l seen = l := by
  induction l with
  | nil => intro seen _ _; rfl
  | cons x xs ih =>
      intro seen hnd hs
      rw [dedupFirstAux, if_neg (hs x (List.mem_cons_self x xs))]
      congr 1
      refine ih (x :: seen) (List.nodup_cons.mp hnd).2 ?_
      intro a ha hmem
      rcases List.mem_cons.mp hmem with rfl | hmem2
      · exact (List.nodup_cons.mp hnd).1 ha
      · exact hs a (List.mem_cons_of_mem _ ha) hmem2

theorem mem_dedupFirst (a : String) (l : List String) : a ∈ dedupFirst l ↔ a ∈ l := by
  rw [dedupFirst, mem_dedupFirstAux]
  simp

theorem nodup_dedupFirst (l : List String) : (dedupFirst l).Nodup :=
  nodup_dedupFirstAux l []

theorem dedupFirst_eq_self (l : List String) (h : l.Nodup) : dedupFirst l = l :=
  dedupFirstAux_eq_self l [] h (by simp)

theorem normalizeUserList_idem (d : String) (l : List String) :
    normalizeUserList d (normalizeUserList d l) = normalizeUserList d l := by
  unfold normalizeUserList
  have h1 : ∀ a ∈ dedupFirst (l.filter (userKeep d)), userKeep d a := fun a ha =>
    List.of_mem_filter ((mem_dedupFirst a _).mp ha)
  rw [List.filter_eq_self.mpr h1, dedupFirst_eq_self _ (nodup_dedupFirst _)]

theorem mergeById_preserves_nodup (prev : List Message) (m : Message)
    (h : (prev.map Message.id).Nodup) : ((mergeById prev m).map Message.id).Nodup := by
  unfold mergeById
  by_cases hc : prev.any (fun x => x.id == m.id)
  · rw [if_pos hc]
    exact h
  · rw [if_neg hc, List.map_append]
    simp only [List.map_cons, List.map_nil]
    rw [List.nodup_append]
    refine ⟨h, List.nodup_singleton _, ?_⟩
    intro a ha hb
    rcases List.mem_singleton.mp hb with rfl
    rcases List.mem_map.mp ha with ⟨x, hx, hxe⟩
    exact hc (List.any_eq_true.mpr ⟨x, hx, by simp [hxe]⟩)

theorem perm_insertByTime (m : Message) (l : List Message) :
    List.Perm (insertByTime m l) (m :: l) := by
  induction l with
  | nil => rfl
  | cons x xs ih =>
      rw [insertByTime]
      by_cases hle : m.createdAt ≤ x.createdAt
      · rw [if_pos hle]
      · rw [if_neg hle]
        exact List.Perm.trans (List.Perm.cons x ih) (List.Perm.swap m x xs)

theorem perm_sortByTime (l : List Message) : List.Perm (sortByTime l) l := by
  induction l with
  | nil => rfl
  | cons x xs ih =>
      rw [sortByTime]
      exact (perm_insertByTime x (sortByTime xs)).trans (List.Perm.cons x ih)

theorem sorted_insertByTime (m : Message) (l : List Message)
    (h : l.Pairwise (fun a b => a.createdAt ≤ b.createdAt)) :
    (insertByTime m l).Pairwise (fun a b => a.createdAt ≤ b.createdAt) := by
  induction l with
  | nil => simp [insertByTime]
  | cons x xs ih =>
      rw [insertByTime]
      rcases List.pairwise_cons.mp h with ⟨hx, hxs⟩
      by_cases hle : m.createdAt ≤ x.createdAt
      · rw [if_pos hle]
        refine List.Pairwise.cons ?_ h
        intro b hb
        rcases List.mem_cons.mp hb with rfl | hb2
        · exact hle
        · exact le_trans hle (hx b hb2)
      · rw [if_neg hle]
        refine List.Pairwise.cons ?_ (ih hxs)
        intro b hb
        rcases List.mem_cons.mp ((perm_insertByTime m xs).mem_iff.mp hb) with rfl | hb2
        · exact Nat.le_of_not_le hle
        · exact hx b hb2

theorem sorted_sortByTime (l : List Message) :
    (sortByTime l).Pairwise (fun a b => a.createdAt ≤ b.createdAt) := by
  induction l with
  | nil => simp [sortByTime]
  | cons x xs ih =>
      rw [sortByTime]
      exact sorted_insertByTime x (sortByTime xs) ih

theorem totalBill_eq_sum (menu : List MenuItem) :
    totalBill menu = (menu.map MenuItem.price).sum := by
  have h : ∀ (l : List MenuItem) (a : ℚ),
      l.foldl (fun sum item => sum + item.price) a = a + (l.map MenuItem.price).sum := by
    intro l
    induction l with
    | nil => intro a; simp
    | cons x xs ih => intro a; simp [ih, add_assoc]
  simpa [totalBill] using h menu 0

theorem textBranchV1_file (displayName roomId newId : String) (now : Nat) (s : SendState) :
    (textBranchV1 displayName roomId newId now s).file = s.file := by
  unfold textBranchV1
  split <;> rfl

theorem textBranchV2_file (socket : Bool) (displayName newId : String) (now : Nat)
    (s : SendState) : (textBranchV2 socket displayName newId now s).file = s.file := by
  unfold textBranchV2
  split <;> rfl

/-! ## Claims -/

/-- C1 (amended): identifier-uniqueness of the message list is preserved by
the first variant's merge operations: the `receiveMessage` and
`receiveProof` socket handlers and the post-upload local append of the
file-send branch all dedup by id, so a state with pairwise-distinct
message identifiers keeps them pairwise distinct (in particular an event
whose identifier already occurs leaves each identifier occurring exactly
once). The second variant's handlers do not (see the counterexample). -/
theorem c1_v1_merges_preserve_unique_ids (displayName roomId : String)
    (prev : List Message) (msg proof : Message) (upload : UploadResult) (s : SendState)
    (h : (prev.map Message.id).Nodup) (hs : (s.messages.map Message.id).Nodup) :
    ((receiveMessageV1 displayName prev msg).map Message.id).Nodup ∧
    ((receiveProofV1 prev proof).map Message.id).Nodup ∧
    (((fileBranchV1 displayName roomId upload s).messages).map Message.id).Nodup := by
  refine ⟨?_, mergeById_preserves_nodup prev proof h, ?_⟩
  · unfold receiveMessageV1
    by_cases hc : msg.senderName == displayName
    · rw [if_pos hc]
      exact h
    · rw [if_neg hc]
      exact mergeById_preserves_nodup prev msg h
  · rcases s with ⟨msgs, inp, f⟩
    cases f with
    | none => exact hs
    | some fn =>
        cases upload with
        | none => exact hs
        | some d => exact mergeById_preserves_nodup msgs (proofMsgV1 displayName roomId d) hs

/-- Witness for C1: concrete run of the amended theorem; a live echo whose
id already occurs leaves the id sets duplicate-free. -/
theorem c1_v1_merges_preserve_unique_ids_witness :
    ((receiveMessageV1 "You"
        [⟨"a", "alice", some "hi", none, 0, none⟩]
        ⟨"a", "bob", some "yo", none, 1, none⟩).map Message.id).Nodup ∧
    ((receiveProofV1
        [⟨"a", "alice", some "hi", none, 0, none⟩]
        ⟨"a", "bob", none, some "u", 1, none⟩).map Message.id).Nodup :=
  ⟨(c1_v1_merges_preserve_unique_ids "You" "r1"
      [⟨"a", "alice", some "hi", none, 0, none⟩]
      ⟨"a", "bob", some "yo", none, 1, none⟩
      ⟨"a", "bob", none, some "u", 1, none⟩ none ⟨[], "", none⟩
      (by decide) (by decide)).1,
   (c1_v1_merges_preserve_unique_ids "You" "r1"
      [⟨"a", "alice", some "hi", none, 0, none⟩]
      ⟨"a", "bob", some "yo", none, 1, none⟩
      ⟨"a", "bob", none, some "u", 1, none⟩ none ⟨[], "", none⟩
      (by decide) (by decide)).2.1⟩

/-- Counterexample to C1 as stated: the second variant's `newMessage` and
`newProof` handlers append unconditionally, so an event whose identifier
already occurs in the list leaves it occurring twice. -/
theorem c1_v2_merges_duplicate_ids :
    ¬ ((newMessageV2 [⟨"a", "alice", some "hi", none, 0, none⟩]
        ⟨"a", "alice", some "hi", none, 0, none⟩).map Message.id).Nodup ∧
    ¬ ((newProofV2 "You" 0 [⟨"a", "alice", none, some "u", 0, none⟩]
        ⟨"a", some "alice", some "u", some 0⟩).map Message.id).Nodup := by
  constructor <;> decide

/-- C2 (amended): the first variant's `receiveMessage` handler discards a
live text message whose `senderName` equals the local display name, and
otherwise appends it unless an entry with the same identifier already
exists. (The second variant's `newMessage` handler does neither — see the
counterexample.) -/
theorem c2_receiveMessageV1_discards_self_dedups_others (displayName : String)
    (prev : List Message) (msg : Message) :
    (msg.senderName = displayName → receiveMessageV1 displayName prev msg = prev) ∧
    (msg.senderName ≠ displayName →
      ((∃ m ∈ prev, m.id = msg.id) → receiveMessageV1 displayName prev msg = prev) ∧
      ((∀ m ∈ prev, m.id ≠ msg.id) →
        receiveMessageV1 displayName prev msg = prev ++ [msg])) := by
  refine ⟨fun h => ?_, fun h => ⟨fun hex => ?_, fun hall => ?_⟩⟩
  · simp [receiveMessageV1, h]
  · rcases hex with ⟨m, hm, hid⟩
    have : prev.any (fun x => x.id == msg.id) := List.any_eq_true.mpr ⟨m, hm, by simp [hid]⟩
    simp [receiveMessageV1, mergeById, h, this]
  · have : ¬ prev.any (fun x => x.id == msg.id) := by
      rw [List.any_eq_true]
      rintro ⟨m, hm, hid⟩
      exact hall m hm (by simpa using hid)
    simp [receiveMessageV1, mergeById, h, this]

/-- Witness for C2: a self-sent echo is dropped; a fresh message from
another sender is appended. -/
theorem c2_receiveMessageV1_discards_self_dedups_others_witness :
    receiveMessageV1 "You" [] ⟨"a", "You", some "hi", none, 0, none⟩ = [] ∧
    receiveMessageV1 "You" [] ⟨"a", "bob", some "hi", none, 0, none⟩ =
      [⟨"a", "bob", some "hi", none, 0, none⟩] :=
  ⟨(c2_receiveMessageV1_discards_self_dedups_others "You" []
      ⟨"a", "You", some "hi", none, 0, none⟩).1 rfl,
   ((c2_receiveMessageV1_discards_self_dedups_others "You" []
      ⟨"a", "bob", some "hi", none, 0, none⟩).2 (by decide)).2 (by simp)⟩

/-- Counterexample to C2 as stated: the second variant's `newMessage`
handler appends a live text message even when its sender is the local
user, so the message list changes. -/
theorem c2_newMessageV2_keeps_self_messages :
    (Message.senderName ⟨"a", "You", some "hi", none, 0, none⟩ = "You") ∧
    newMessageV2 [] ⟨"a", "You", some "hi", none, 0, none⟩ ≠ [] := by
  constructor
  · rfl
  · decide

/-- C3 (amended): the `userList` handler replaces the online-participant
set with the received list filtered to entries that are non-empty, not
whitespace-only and not the local display name, deduplicated by exact
string equality keeping first occurrences; entries themselves are kept
verbatim, *not* trimmed (see the counterexample). The application is
idempotent, both because the handler ignores the previous set and because
`normalizeUserList` is idempotent as a function. -/
theorem c3_userList_replace_idempotent (displayName : String)
    (prev prev2 users : List String) :
    applyUserList displayName prev users = dedupFirst (users.filter (userKeep displayName)) ∧
    (applyUserList displayName prev users).Nodup ∧
    (∀ u ∈ applyUserList displayName prev users,
        u ≠ "" ∧ jsTrim u ≠ "" ∧ u ≠ displayName ∧ u ∈ users) ∧
    applyUserList displayName (applyUserList displayName prev2 users) users =
      applyUserList displayName prev users ∧
    normalizeUserList displayName (normalizeUserList displayName users) =
      normalizeUserList displayName users := by
  refine ⟨rfl, nodup_dedupFirst _, ?_, rfl, normalizeUserList_idem displayName users⟩
  intro u hu
  have hu2 : u ∈ users.filter (userKeep displayName) := (mem_dedupFirst u _).mp hu
  have hk : userKeep displayName u := List.of_mem_filter hu2
  have hmem : u ∈ users := List.mem_of_mem_filter hu2
  simp only [userKeep, Bool.and_eq_true, Bool.not_eq_true', beq_eq_false_iff_ne] at hk
  exact ⟨hk.1.1, hk.1.2, hk.2, hmem⟩

/-- Witness for C3: a concrete application of the amended theorem. -/
theorem c3_userList_replace_idempotent_witness :
    "alice" ≠ "" ∧ "alice" ≠ "You" :=
  ⟨((c3_userList_replace_idempotent "You" [] [] ["alice"]).2.2.1 "alice" (by decide)).1,
   ((c3_userList_replace_idempotent "You" [] [] ["alice"]).2.2.1 "alice" (by decide)).2.2.1⟩

/-- Counterexample to C3 as stated: the received entries are not trimmed —
`" bob "` and `"bob"` stay distinct entries (and a padded local name is
not excluded), so the result is not "a deduplicated, trimmed version" of
the received list; `normalizeUserListSpec` renders the claim's words. -/
theorem c3_userList_entries_not_trimmed :
    applyUserList "You" [] [" bob ", "bob"] = [" bob ", "bob"] ∧
    normalizeUserListSpec "You" [" bob ", "bob"] = ["bob"] ∧
    applyUserList "You" [] [" You "] = [" You "] := by
  refine ⟨by decide, by decide, by decide⟩

/-- C4: the bill split satisfies total = sum of menu item prices,
participant count = 1 + size of the online set, each-share =
total / participant count (with the zero-participant fallback to the raw
total written into `eachShare`); with total 100 and 0 other participants
the share is 100, and with 3 other participants it is 25. -/
theorem c4_bill_split (menu : List MenuItem) (users : List String) :
    totalBill menu = (menu.map MenuItem.price).sum ∧
    totalParticipants users = 1 + users.length ∧
    (0 < totalParticipants users →
      eachShare menu users = totalBill menu / (totalParticipants users : ℚ)) ∧
    (totalBill menu = 100 → users.length = 0 → eachShare menu users = 100) ∧
    (totalBill menu = 100 → users.length = 3 → eachShare menu users = 25) := by
  refine ⟨totalBill_eq_sum menu, rfl, fun h => ?_, fun h hl => ?_, fun h hl => ?_⟩
  · simp [eachShare, h]
  · simp [eachShare, totalParticipants, hl, h]
  · simp [eachShare, totalParticipants, hl, h]
    norm_num

/-- Witness for C4: a one-item menu priced 100, split alone and with three
other online participants. -/
theorem c4_bill_split_witness :
    eachShare [⟨"0", "pizza", 100⟩] [] = 100 ∧
    eachShare [⟨"0", "pizza", 100⟩] ["a", "b", "c"] = 25 :=
  ⟨(c4_bill_split [⟨"0", "pizza", 100⟩] []).2.2.2.1 (by simp [totalBill]) rfl,
   (c4_bill_split [⟨"0", "pizza", 100⟩] ["a", "b", "c"]).2.2.2.2 (by simp [totalBill]) rfl⟩

/-- C5: when the input trims to the empty string and no file is selected,
`handleSend` (either variant) is a no-op: the guard
`(!input.trim() && !file)` fires and neither the message list nor the
input field (nor anything else in the send state) changes. -/
theorem c5_whitespace_send_noop (socket tokenPresent : Bool)
    (displayName roomId newId : String) (now : Nat) (upload : UploadResult)
    (s : SendState) (hi : jsTrim s.input = "") (hf : s.file = none) :
    handleSendV1 socket displayName roomId newId now upload s = s ∧
    handleSendV2 socket tokenPresent displayName newId now upload s = s := by
  constructor
  · simp [handleSendV1, hi, hf]
  · simp [handleSendV2, hi, hf]

/-- Witness for C5: a whitespace-only input with no file is left alone. -/
theorem c5_whitespace_send_noop_witness :
    handleSendV1 true "You" "r" "id1" 0 none ⟨[], "   ", none⟩ = ⟨[], "   ", none⟩ ∧
    handleSendV2 true true "You" "id1" 0 none ⟨[], "   ", none⟩ = ⟨[], "   ", none⟩ :=
  c5_whitespace_send_noop true true "You" "r" "id1" 0 none ⟨[], "   ", none⟩
    (by decide) rfl

/-- C6: a file send whose HTTP upload fails (response not ok, or the
request throws — both land in the `catch` block, modelled by the `none`
upload outcome) leaves the file branch's state untouched in both
variants: the selected file stays assigned and no message is appended;
across the whole `handleSend` the file selection is preserved. -/
theorem c6_upload_failure_preserves_state (socket tokenPresent : Bool)
    (displayName roomId newId : String) (now : Nat) (s : SendState) :
    fileBranchV1 displayName roomId none s = s ∧
    fileBranchV2 tokenPresent displayName none s = s ∧
    (handleSendV1 socket displayName roomId newId now none s).file = s.file ∧
    (handleSendV2 socket tokenPresent displayName newId now none s).file = s.file := by
  have h1 : ∀ s2 : SendState, fileBranchV1 displayName roomId none s2 = s2 := by
    intro s2
    rcases s2 with ⟨msgs, inp, f⟩
    cases f <;> rfl
  have h2 : ∀ s2 : SendState, fileBranchV2 tokenPresent displayName none s2 = s2 := by
    intro s2
    unfold fileBranchV2
    split
    · rfl
    · rfl
  refine ⟨h1 s, h2 s, ?_, ?_⟩
  · unfold handleSendV1
    split
    · rfl
    · rw [h1]
      exact textBranchV1_file displayName roomId newId now s
  · unfold handleSendV2
    split
    · rfl
    · rw [h2]
      exact textBranchV2_file socket displayName newId now s

/-- C7: with no stored auth token, the fetch effect navigates to the login
view and issues neither the room-metadata fetch nor the message-history
fetch, and the socket effect opens no connection (its cleanup is empty). -/
theorem c7_missing_token_redirects_without_requests (roomFetchOk : Bool)
    (connId pending : Nat) :
    (fetchEffect none roomFetchOk).navigatedTo = some "/login" ∧
    (fetchEffect none roomFetchOk).roomFetchIssued = false ∧
    (fetchEffect none roomFetchOk).historyFetchIssued = false ∧
    (socketEffect none connId).conn = none ∧
    (socketEffect none connId).cleanup pending = [] :=
  ⟨rfl, rfl, rfl, rfl, rfl⟩

/-- C8 (amended): history normalization (identical in both variants) falls
back for the sender name through `senderName`, then `sender.name`, to
`"Unknown"`, for the attachment URL through `proofUrl` then `fileUrl`,
and for the timestamp to the current time when absent; the first variant
additionally sorts the fetched list ascending by `createdAt` (a
permutation of the normalized messages). The second variant does not sort
(see the counterexample). -/
theorem c8_fetch_normalization_and_sort (now : Nat) (raws : List RawMessage)
    (raw : RawMessage) :
    List.Sorted (· ≤ ·) ((fetchMessagesV1 now raws).map Message.createdAt) ∧
    List.Perm (fetchMessagesV1 now raws) (raws.map (normalizeMessage now)) ∧
    (∀ s, raw.senderName = some s → s ≠ "" →
      (normalizeMessage now raw).senderName = s) ∧
    ((raw.senderName = none ∨ raw.senderName = some "") →
      ∀ t, raw.senderDotName = some t → t ≠ "" →
        (normalizeMessage now raw).senderName = t) ∧
    ((raw.senderName = none ∨ raw.senderName = some "") →
      (raw.senderDotName = none ∨ raw.senderDotName = some "") →
        (normalizeMessage now raw).senderName = "Unknown") ∧
    (∀ u, raw.proofUrl = some u → u ≠ "" →
      (normalizeMessage now raw).proofUrl = some u) ∧
    ((raw.proofUrl = none ∨ raw.proofUrl = some "") →
      (normalizeMessage now raw).proofUrl = raw.fileUrl) ∧
    (raw.createdAt = none → (normalizeMessage now raw).createdAt = now) ∧
    (∀ t, raw.createdAt = some t → (normalizeMessage now raw).createdAt = t) := by
  refine ⟨?_, perm_sortByTime (raws.map (normalizeMessage now)),
          fun s hs hne => ?_, fun h0 t ht hne => ?_, fun h0 h1 => ?_,
          fun u hu hne => ?_, fun h0 => ?_, fun h0 => ?_, fun t ht => ?_⟩
  · exact List.Pairwise.map Message.createdAt (fun a b hab => hab)
      (sorted_sortByTime (raws.map (normalizeMessage now)))
  · simp [normalizeMessage, strOr, hs, hne]
  · rcases h0 with h0 | h0 <;> simp [normalizeMessage, strOr, h0, ht, hne]
  · rcases h0 with h0 | h0 <;> rcases h1 with h1 | h1 <;>
      simp [normalizeMessage, strOr, h0, h1]
  · simp [normalizeMessage, strOrOpt, hu, hne]
  · rcases h0 with h0 | h0 <;> simp [normalizeMessage, strOrOpt, h0]
  · simp [normalizeMessage, h0]
  · simp [normalizeMessage, ht]

/-- Witness for C8: a raw message with an empty `senderName`, a `sender.name`,
only a `fileUrl`, and no timestamp normalizes through every fallback. -/
theorem c8_fetch_normalization_and_sort_witness :
    (normalizeMessage 7 ⟨"m1", some "", some "alice", none, some "", some "u", none⟩).senderName
        = "alice" ∧
    (normalizeMessage 7 ⟨"m1", some "", some "alice", none, some "", some "u", none⟩).proofUrl
        = some "u" ∧
    (normalizeMessage 7 ⟨"m1", some "", some "alice", none, some "", some "u", none⟩).createdAt
        = 7 :=
  ⟨(c8_fetch_normalization_and_sort 7 []
      ⟨"m1", some "", some "alice", none, some "", some "u", none⟩).2.2.2.1
      (Or.inr rfl) "alice" rfl (by decide),
   (c8_fetch_normalization_and_sort 7 []
      ⟨"m1", some "", some "alice", none, some "", some "u", none⟩).2.2.2.2.2.2.1
      (Or.inr rfl),
   (c8_fetch_normalization_and_sort 7 []
      ⟨"m1", some "", some "alice", none, some "", some "u", none⟩).2.2.2.2.2.2.2.1
      rfl⟩

/-- Counterexample to C8 as stated: the second variant's `fetchMessages`
does not sort — a history payload arriving out of order is displayed out
of order. -/
theorem c8_fetchMessagesV2_not_sorted :
    ((fetchMessagesV2 0
      [⟨"b", some "alice", none, some "second", none, none, some 5⟩,
       ⟨"a", some "alice", none, some "first", none, none, some 3⟩]).map Message.createdAt)
      = [5, 3] ∧
    ¬ List.Sorted (· ≤ ·) ((fetchMessagesV2 0
      [⟨"b", some "alice", none, some "second", none, none, some 5⟩,
       ⟨"a", some "alice", none, some "first", none, none, some 3⟩]).map Message.createdAt) := by
  constructor
  · decide
  · decide

/-- C9: for every mount with a token present, the socket effect opens one
connection and hands back a cleanup that performs exactly one disconnect
of that same connection, whatever number of inbound events is still
pending; the no-token mount returns the empty cleanup. The React runtime
contract that this cleanup runs once on every exit from the mounted state
is taken from the spec (the framework is outside this repository). -/
theorem c9_cleanup_disconnects_exactly_once (t : String) (connId pending : Nat) :
    (socketEffect (some t) connId).conn = some connId ∧
    (socketEffect (some t) connId).cleanup pending = [TeardownAction.disconnect connId] ∧
    ((socketEffect (some t) connId).cleanup pending).count (TeardownAction.disconnect connId)
      = 1 := by
  refine ⟨rfl, rfl, ?_⟩
  simp [socketEffect]

/-- C10: the participant count is `1 + |online|`, hence at least 1, so the
zero-participant fallback branch of `eachShare` is unreachable: the share
always equals total / (1 + number of other online participants), and the
inline "Each User Pays" division renders the same value. -/
theorem c10_participant_count_positive (menu : List MenuItem) (users : List String) :
    1 ≤ totalParticipants users ∧
    totalParticipants users = 1 + users.length ∧
    eachShare menu users = totalBill menu / (totalParticipants users : ℚ) ∧
    eachShare menu users = totalBill menu / ((users.length + 1 : Nat) : ℚ) ∧
    inlineEachUserPays menu users = eachShare menu users := by
  have hp : 0 < totalParticipants users := Nat.lt_of_lt_of_le Nat.zero_lt_one
    (Nat.le_add_right 1 users.length)
  refine ⟨hp, rfl, by simp [eachShare, hp], ?_, ?_⟩
  · simp [eachShare, hp, totalParticipants, Nat.add_comm]
  · simp [inlineEachUserPays, eachShare, hp, totalParticipants, Nat.add_comm]
